import Mathlib

/-!
Shallow embedding of the file-backed job queue of the
AntibioticResistanceGeneDetector repository
(`streamlit_app/job_manager.py` and `streamlit_app/job_worker.py`).

Modelling conventions:
* timestamps (`time.time()` floats) are modelled as `Int` values, only their
  ordering and nonzero-ness matter to the embedded code;
* a job directory `temp/jobs/<id>/` is a `JobDir`: its `job.json` record, the
  presence of its `.lock` marker file, and the directory's `st_mtime`;
* the job store (the `temp/jobs` directory) is a `List JobDir`;
* the detection pipeline (`run_detection_and_collect`) is an external
  collaborator and is modelled as an oracle from job id to an outcome: either
  a result record (with the progress messages it emitted through the callback)
  or a raised exception.
-/

namespace JobQueue

/-- Job status strings used by the code:
QUEUED, RUNNING, COMPLETED, FAILED, CANCELLED. -/
inductive Status
  | QUEUED
  | RUNNING
  | COMPLETED
  | FAILED
  | CANCELLED
deriving DecidableEq

/-- The `job.json` record, as created by `job_manager.create_job` and mutated
by the worker (`job_worker.run_worker_loop`). A progress-history entry
`{"ts": t, "progress": p}` is the pair `(t, p)`. -/
structure Job where
  id : Nat
  status : Status
  created_at : Int
  updated_at : Int
  attempts : Nat
  progress_history : List (Int × String)
  last_error : Option String
  params : List (String × String)
  input_files : List String
  output_files : List String
  worker_notes : String
  message : String
deriving DecidableEq

/-- One job directory under `temp/jobs`: the persisted record, whether the
`.lock` marker file currently exists, and the directory's `st_mtime`
(the filesystem updates it whenever an entry inside the directory is
created, removed or replaced — e.g. by `os.replace` of `job.json` or by
lock-file churn). -/
structure JobDir where
  job : Job
  lock : Bool
  mtime : Int
deriving DecidableEq

/-- Default maximum number of execution attempts (`job_worker.MAX_ATTEMPTS`). -/
def MAX_ATTEMPTS : Nat := 2

/-- Default retention count for terminal jobs (`job_worker.MAX_COMPLETED_JOBS`). -/
def MAX_COMPLETED_JOBS : Nat := 50

/-- Default age ceiling in days for terminal jobs (`job_worker.MAX_JOB_AGE_DAYS`). -/
def MAX_JOB_AGE_DAYS : Nat := 7

/-- The worker's progress callback (`job_worker.run_worker_loop.progress_hook`,
lines 220–239): append the entry, truncate the history to its last 100
entries (`hist[-100:]`), refresh `updated_at`, and persist via `save_job`.
The returned record is the persisted record. -/
def progress_hook (now : Int) (p : String) (job : Job) : Job :=
  let h := job.progress_history ++ [(now, p)]
  let h := if 100 < h.length then h.drop (h.length - 100) else h
  { job with progress_history := h, updated_at := now }

/-- The `progress=` branch of `job_manager.update_job` (lines 128–137):
append the entry to `progress_history` with no truncation, refresh
`updated_at`, persist. -/
def update_job_progress (now : Int) (p : String) (job : Job) : Job :=
  { job with progress_history := job.progress_history ++ [(now, p)],
             updated_at := now }

/-- Deliver a sequence of progress updates through the worker's callback,
oldest first, persisting after each one (as the worker does). -/
def applyHook (updates : List (Int × String)) (job : Job) : Job :=
  updates.foldl (fun j u => progress_hook u.1 u.2 j) job

theorem progress_hook_length (now : Int) (p : String) (job : Job) :
    (progress_hook now p job).progress_history.length =
      min (job.progress_history.length + 1) 100 := by
  simp only [progress_hook]
  by_cases h : 100 < job.progress_history.length + 1 <;>
    simp [List.length_append, h] <;> omega

theorem progress_hook_getLast (now : Int) (p : String) (job : Job) :
    (progress_hook now p job).progress_history.getLast? = some (now, p) := by
  simp only [progress_hook]
  by_cases h : 100 < (job.progress_history ++ [(now, p)]).length
  · have hle : (job.progress_history ++ [(now, p)]).length - 100 ≤
        job.progress_history.length := by
      simp only [List.length_append, List.length_cons, List.length_nil] at h ⊢
      omega
    simp only [h, if_true]
    rw [List.drop_append_of_le_length hle]
    exact List.getLast?_concat _
  · simp only [h, if_false]
    exact List.getLast?_concat _

theorem applyHook_length (updates : List (Int × String)) (job : Job)
    (hj : job.progress_history.length ≤ 100) :
    (applyHook updates job).progress_history.length =
      min (job.progress_history.length + updates.length) 100 := by
  induction updates generalizing job with
  | nil => simp [applyHook]; omega
  | cons u us ih =>
      have h1 := progress_hook_length u.1 u.2 job
      have h2 : (progress_hook u.1 u.2 job).progress_history.length ≤ 100 := by
        omega
      have := ih (progress_hook u.1 u.2 job) h2
      simp only [applyHook, List.foldl_cons] at this ⊢
      rw [this, h1]
      simp only [List.length_cons]
      omega

theorem applyHook_getLast (updates : List (Int × String)) (job : Job)
    (hne : updates ≠ []) :
    (applyHook updates job).progress_history.getLast? = updates.getLast? := by
  induction updates generalizing job with
  | nil => exact absurd rfl hne
  | cons u us ih =>
      cases us with
      | nil =>
          simp only [applyHook, List.foldl_cons, List.foldl_nil]
          simp [progress_hook_getLast]
      | cons v vs =>
          have := ih (progress_hook u.1 u.2 job) (by simp)
          simp only [applyHook, List.foldl_cons] at this ⊢
          rw [this]
          simp [List.getLast?_cons_cons]

/-- A fresh job record as `create_job` writes it (id abstracted to 0). -/
def job0 : Job :=
  { id := 0, status := Status.QUEUED, created_at := 1, updated_at := 1,
    attempts := 0, progress_history := [], last_error := none, params := [],
    input_files := [], output_files := [], worker_notes := "", message := "" }

/-- 101 progress updates, more than the history bound. -/
def updates101 : List (Int × String) :=
  (List.range 101).map (fun i => ((i : Int), "stage"))

/-- A job that has already received exactly 100 progress updates through the
worker's callback, so its persisted history is at the bound. -/
def jobFull : Job :=
  applyHook ((List.range 100).map (fun i => ((i : Int), "stage"))) job0

/-- C2, amended: the worker's progress callback preserves the 100-entry bound
on every update (append then truncate to the last 100, persisted each call):
after any N updates the persisted history has min(N,100) entries — at most
100 at every intermediate point — and for N > 100 exactly 100 entries whose
last equals the most recently appended update. The store's `update_job`
`progress=` path does not preserve the bound (see the counterexample). -/
theorem C2_progress_history_bound (updates : List (Int × String)) (job : Job)
    (hj : job.progress_history = []) (hN : 100 < updates.length) :
    (applyHook updates job).progress_history.length = 100 ∧
    (applyHook updates job).progress_history.getLast? = updates.getLast? ∧
    (∀ k : Nat, (applyHook (updates.take k) job).progress_history.length ≤ 100) := by
  refine ⟨?_, ?_, ?_⟩
  · rw [applyHook_length updates job (by simp [hj]), hj]
    simp only [List.length_nil, Nat.zero_add]
    omega
  · exact applyHook_getLast updates job
      (by intro h; rw [h] at hN; simp at hN)
  · intro k
    rw [applyHook_length (updates.take k) job (by simp [hj])]
    exact Nat.min_le_right _ _

/-- C2 witness: the amended theorem applied to a concrete run of 101 updates. -/
theorem C2_progress_history_bound_witness :
    (applyHook updates101 job0).progress_history.length = 100 ∧
    (applyHook updates101 job0).progress_history.getLast? = updates101.getLast? ∧
    (applyHook (updates101.take 50) job0).progress_history.length ≤ 100 := by
  have h : 100 < updates101.length := by decide
  exact ⟨(C2_progress_history_bound updates101 job0 rfl h).1,
         (C2_progress_history_bound updates101 job0 rfl h).2.1,
         (C2_progress_history_bound updates101 job0 rfl h).2.2 50⟩

/-- C2 counterexample: `update_job(job_id, progress=...)` appends to
`progress_history` without truncating, so one call on a job whose persisted
history is already at the 100-entry bound (reachable via the worker's
callback) persists 101 entries — the claimed invariant fails on that
write path. -/
theorem C2_update_job_breaks_bound :
    ¬ ((update_job_progress 200 "late" jobFull).progress_history.length ≤ 100) := by
  have h100 : jobFull.progress_history.length = 100 := by
    have h := applyHook_length
      ((List.range 100).map (fun i => ((i : Int), "stage"))) job0
      (by simp [job0])
    simp only [job0, List.length_map, List.length_range] at h
    simpa [jobFull, job0] using h
  simp [update_job_progress, h100]

/-- The fields of the pipeline's result dict that the worker reads
(`message`, `csv_bytes`, `plots_zip`); byte payloads are abstracted to
strings, `none` meaning the key is absent or not bytes-like. -/
structure PipeRes where
  message : String
  csv_bytes : Option String
  plots_zip : Option String
deriving DecidableEq

/-- Where (if anywhere) the artifact-saving block of the worker
(lines 266–292 of `job_worker.py`) raises: creating the output folder,
writing `results.csv`, or writing `plots.zip`. The block runs in source
order, so a csv failure prevents the plots write and a plots failure leaves
the csv entry in `results`. -/
inductive ArtFail
  | ok
  | mkdirErr (e : String)
  | csvErr (e : String)
  | plotsErr (e : String)
deriving DecidableEq

/-- The exception text of an artifact failure. -/
def artNote : ArtFail → String
  | ArtFail.ok => ""
  | ArtFail.mkdirErr e => e
  | ArtFail.csvErr e => e
  | ArtFail.plotsErr e => e

/-- The "csv" entry of the worker's `results` dict: present exactly when the
pipeline returned csv bytes. -/
def csvEntry (res : PipeRes) : List String :=
  match res.csv_bytes with
  | some _ => ["output/results.csv"]
  | none => []

/-- The "plots" entry of the worker's `results` dict. -/
def plotsEntry (res : PipeRes) : List String :=
  match res.plots_zip with
  | some _ => ["output/plots.zip"]
  | none => []

/-- The worker's success path (`job_worker.py` lines 261–296): mark the job
COMPLETED with the pipeline's message, then try to persist artifacts; if
that block raises, append an `Artifact save error` note to `worker_notes`
and keep whatever `results` entries were already recorded. `output_files`
and `updated_at` are set after the block either way, and the record is
persisted. -/
def finishSuccess (now : Int) (res : PipeRes) (af : ArtFail) (job : Job) : Job :=
  let j := { job with status := Status.COMPLETED, message := res.message }
  match af with
  | ArtFail.ok =>
      { j with output_files := csvEntry res ++ plotsEntry res, updated_at := now }
  | ArtFail.mkdirErr e =>
      { j with worker_notes := j.worker_notes ++ "\nArtifact save error: " ++ e,
               output_files := [], updated_at := now }
  | ArtFail.csvErr e =>
      { j with worker_notes := j.worker_notes ++ "\nArtifact save error: " ++ e,
               output_files := [], updated_at := now }
  | ArtFail.plotsErr e =>
      { j with worker_notes := j.worker_notes ++ "\nArtifact save error: " ++ e,
               output_files := csvEntry res, updated_at := now }

/-- The worker's failure path (`job_worker.py` lines 297–315): the pipeline
raised; `tb` is the captured traceback, `msg` is `str(exc)`. If the job's
attempt counter is still below the maximum it is re-queued with a retry
note, otherwise it is marked FAILED. -/
def finishFailure (maxA : Nat) (now : Int) (tb msg : String) (job : Job) : Job :=
  if job.attempts < maxA then
    { job with status := Status.QUEUED, last_error := some tb, message := msg,
               worker_notes := job.worker_notes ++ "\nRetrying after error: " ++ msg,
               updated_at := now }
  else
    { job with status := Status.FAILED, last_error := some tb, message := msg,
               updated_at := now }

/-- Outcome of one `run_detection_and_collect` call, as seen by the worker:
either it returns a result dict, or it raises. In both cases `progress`
lists the messages the pipeline delivered through the progress callback
before finishing, oldest first. -/
inductive POutcome
  | done (progress : List (Int × String)) (res : PipeRes) (af : ArtFail)
  | raised (progress : List (Int × String)) (tb : String) (msg : String)

/-- A QUEUED job with no existing `.lock` marker is the only thing the
worker's poll body claims (`job_worker.py` lines 194–212). -/
def claimable (jd : JobDir) : Bool :=
  decide (jd.job.status = Status.QUEUED) && !jd.lock

/-- One iteration of the worker's inner for-loop over job directories
(`job_worker.py` lines 183–340) on a single directory: skip CANCELLED,
skip non-QUEUED, skip if the lock marker exists; otherwise create the lock,
bump `attempts`, persist RUNNING, run the pipeline (whose callbacks append
and persist progress), finish via the success or failure path, and remove
the lock in the `finally` block. The returned flag records whether the job
was claimed — the worker writes its heartbeat exactly after each claimed
job (lines 324–340). -/
def processJob (maxA : Nat) (now : Int) (oracle : Nat → POutcome) (jd : JobDir) :
    JobDir × Bool :=
  if jd.job.status = Status.CANCELLED then (jd, false)
  else if jd.job.status ≠ Status.QUEUED then (jd, false)
  else if jd.lock then (jd, false)
  else
    let j1 : Job := { jd.job with
      attempts := jd.job.attempts + 1,
      status := Status.RUNNING, updated_at := now }
    let j2 : Job :=
      match oracle jd.job.id with
      | POutcome.done progress res af => finishSuccess now res af (applyHook progress j1)
      | POutcome.raised progress tb msg => finishFailure maxA now tb msg (applyHook progress j1)
    (⟨j2, false, jd.mtime⟩, true)

/-- The worker-visible world: the job store plus the heartbeat and pid
files. `hbWrites` counts heartbeat writes so far. -/
structure WorkerState where
  store : List JobDir
  hbWrites : Nat
  hbPresent : Bool
  pidPresent : Bool

/-- One pass of the worker's for-loop over every job directory. Each
iteration reads and writes only its own directory, so the sequential loop
acts independently per entry; the heartbeat is (re)written once after every
claimed job, and not otherwise. -/
def pollCycle (maxA : Nat) (now : Int) (oracle : Nat → POutcome)
    (ws : WorkerState) : WorkerState :=
  let results := ws.store.map (processJob maxA now oracle)
  let claimed := (results.filter (fun r => r.2)).length
  { store := results.map (fun r => r.1),
    hbWrites := ws.hbWrites + claimed,
    hbPresent := ws.hbPresent || decide (0 < claimed),
    pidPresent := ws.pidPresent }

/-- The startup recovery rule applied to one job directory
(`job_worker.py` lines 164–177): a job persisted as RUNNING is rewritten to
QUEUED (only `status` and `updated_at` change; the lock marker, if any, is
not touched); every other status is left unchanged. -/
def recoverOne (now : Int) (jd : JobDir) : JobDir :=
  if jd.job.status = Status.RUNNING then
    ⟨{ jd.job with status := Status.QUEUED, updated_at := now }, jd.lock, jd.mtime⟩
  else jd

/-- Worker startup (`job_worker.py` lines 150–179): write the pid file and
run the RUNNING-recovery pass over every job directory. No heartbeat has
been written yet. -/
def workerStart (now : Int) (store : List JobDir) : WorkerState :=
  { store := store.map (recoverOne now), hbWrites := 0,
    hbPresent := false, pidPresent := true }

/-- Clean worker shutdown (`job_worker.py` lines 384–395): the `finally`
block deletes the pid file and the heartbeat file. -/
def workerShutdown (ws : WorkerState) : WorkerState :=
  { ws with pidPresent := false, hbPresent := false }

/-- Run a sequence of poll cycles, each with its own wall-clock time and
pipeline behaviour. -/
def runCycles (maxA : Nat) (cycles : List (Int × (Nat → POutcome)))
    (ws : WorkerState) : WorkerState :=
  cycles.foldl (fun s c => pollCycle maxA c.1 c.2 s) ws

/-- The worker entry point (`job_worker.run_worker_loop`): startup (pid file
plus RUNNING-recovery) happens before the first poll cycle. -/
def run_worker_loop (maxA : Nat) (startNow : Int)
    (cycles : List (Int × (Nat → POutcome))) (store : List JobDir) : WorkerState :=
  runCycles maxA cycles (workerStart startNow store)

theorem processJob_snd (maxA : Nat) (now : Int) (oracle : Nat → POutcome)
    (jd : JobDir) : (processJob maxA now oracle jd).2 = claimable jd := by
  rcases jd with ⟨j, l, m⟩
  rcases hj : j.status <;> rcases l <;>
    simp [processJob, claimable, hj]

theorem processJob_cancelled (maxA : Nat) (now : Int) (oracle : Nat → POutcome)
    (jd : JobDir) (hc : jd.job.status = Status.CANCELLED) :
    processJob maxA now oracle jd = (jd, false) := by
  simp [processJob, hc]

/-- A pipeline oracle that always raises. -/
def oracleNone : Nat → POutcome := fun _ => POutcome.raised [] "tb" "err"

/-- A store whose only job is COMPLETED: nothing for the worker to claim. -/
def jdCompleted : JobDir :=
  ⟨{ job0 with id := 7, status := Status.COMPLETED }, false, 3⟩

/-- Worker state over that store, after some earlier activity. -/
def wsIdle : WorkerState :=
  { store := [jdCompleted], hbWrites := 0, hbPresent := false, pidPresent := true }

/-- C3, amended: the worker rewrites the heartbeat snapshot once after each
job it claims in a poll cycle — a cycle that claims no QUEUED, unlocked job
writes no heartbeat — no heartbeat exists at worker start (startup writes
only the pid file), and the heartbeat file is deleted on clean shutdown. -/
theorem C3_heartbeat_follows_processed_jobs (maxA : Nat) (now : Int)
    (oracle : Nat → POutcome) (ws : WorkerState) (startNow : Int)
    (store : List JobDir) :
    (pollCycle maxA now oracle ws).hbWrites =
      ws.hbWrites + (ws.store.filter claimable).length ∧
    (workerStart startNow store).hbPresent = false ∧
    (workerShutdown ws).hbPresent = false := by
  refine ⟨?_, rfl, rfl⟩
  have hf : ((fun r : JobDir × Bool => r.2) ∘ processJob maxA now oracle) = claimable := by
    funext jd
    exact processJob_snd maxA now oracle jd
  simp only [pollCycle]
  rw [← List.countP_eq_length_filter, List.countP_map, hf,
      List.countP_eq_length_filter]

/-- C3 counterexample: a poll cycle over a store holding only a COMPLETED
job claims nothing and therefore writes no heartbeat at all — the heartbeat
is not rewritten every poll cycle — and worker startup does not create a
heartbeat either. -/
theorem C3_idle_cycle_skips_heartbeat :
    (pollCycle MAX_ATTEMPTS 10 oracleNone wsIdle).hbWrites = 0 ∧
    (pollCycle MAX_ATTEMPTS 10 oracleNone wsIdle).hbPresent = false ∧
    (workerStart 0 [jdCompleted]).hbPresent = false :=
  ⟨rfl, rfl, rfl⟩

/-- C5: at worker startup every job persisted as RUNNING is rewritten to
QUEUED (only `status` and `updated_at` change), every other job is left
unchanged by the recovery pass, and `run_worker_loop` performs this pass
before its first poll cycle. -/
theorem C5_running_requeued_at_startup (now : Int) (store : List JobDir)
    (i : Nat) (jd : JobDir) (h : store[i]? = some jd) :
    (jd.job.status = Status.RUNNING →
       (workerStart now store).store[i]? =
         some ⟨{ jd.job with status := Status.QUEUED, updated_at := now },
               jd.lock, jd.mtime⟩) ∧
    (jd.job.status ≠ Status.RUNNING →
       (workerStart now store).store[i]? = some jd) ∧
    (∀ (maxA : Nat) (cycles : List (Int × (Nat → POutcome))),
       run_worker_loop maxA now cycles store =
         runCycles maxA cycles (workerStart now store)) := by
  refine ⟨?_, ?_, fun _ _ => rfl⟩
  · intro hr
    simp [workerStart, List.getElem?_map, h, recoverOne, hr]
  · intro hr
    simp [workerStart, List.getElem?_map, h, recoverOne, hr]

/-- A job directory persisted as RUNNING (orphaned by a crash). -/
def jdRunning : JobDir :=
  ⟨{ job0 with id := 3, status := Status.RUNNING, attempts := 2 }, true, 5⟩

/-- C5 witness: the recovery theorem applied to a store with one orphaned
RUNNING job. -/
theorem C5_running_requeued_at_startup_witness :
    ((workerStart 9 [jdRunning]).store[0]? =
      some ⟨{ jdRunning.job with status := Status.QUEUED, updated_at := 9 },
            jdRunning.lock, jdRunning.mtime⟩) ∧
    run_worker_loop 2 9 [] [jdRunning] = runCycles 2 [] (workerStart 9 [jdRunning]) :=
  ⟨(C5_running_requeued_at_startup 9 [jdRunning] 0 jdRunning rfl).1 rfl,
   (C5_running_requeued_at_startup 9 [jdRunning] 0 jdRunning rfl).2.2 2 []⟩

/-- C6: a job whose persisted status is CANCELLED is skipped by every poll
cycle — its directory entry (status, attempts, lock marker) is left
completely unchanged over any sequence of cycles, whatever the pipeline
oracle would do, so it is never claimed and the pipeline is never invoked
for it. -/
theorem C6_cancelled_never_claimed (maxA : Nat)
    (cycles : List (Int × (Nat → POutcome))) (ws : WorkerState) (i : Nat)
    (jd : JobDir) (h : ws.store[i]? = some jd)
    (hc : jd.job.status = Status.CANCELLED) :
    (runCycles maxA cycles ws).store[i]? = some jd := by
  induction cycles generalizing ws with
  | nil => simpa [runCycles] using h
  | cons c cs ih =>
      have hstep : (pollCycle maxA c.1 c.2 ws).store[i]? = some jd := by
        simp [pollCycle, List.getElem?_map, h,
              processJob_cancelled maxA c.1 c.2 jd hc]
      have : runCycles maxA (c :: cs) ws =
          runCycles maxA cs (pollCycle maxA c.1 c.2 ws) := by
        simp [runCycles]
      rw [this]
      exact ih _ hstep

/-- A CANCELLED job directory. -/
def jdCancelled : JobDir :=
  ⟨{ job0 with id := 9, status := Status.CANCELLED, attempts := 1 }, false, 4⟩

/-- Worker state over a store holding one CANCELLED job. -/
def wsCancelled : WorkerState :=
  { store := [jdCancelled], hbWrites := 0, hbPresent := false, pidPresent := true }

/-- C6 witness: one concrete poll cycle leaves the CANCELLED job untouched. -/
theorem C6_cancelled_never_claimed_witness :
    (runCycles 2 [(5, oracleNone)] wsCancelled).store[0]? = some jdCancelled :=
  C6_cancelled_never_claimed 2 [(5, oracleNone)] wsCancelled 0 jdCancelled rfl rfl

/-- C9: when the pipeline call returns but saving the artifacts raises, the
job is still marked COMPLETED (so never FAILED and never re-QUEUED by an
artifact failure), and an `Artifact save error` note is appended to its
`worker_notes`. -/
theorem C9_artifact_failure_still_completed (now : Int) (res : PipeRes)
    (af : ArtFail) (job : Job) :
    (finishSuccess now res af job).status = Status.COMPLETED ∧
    (af ≠ ArtFail.ok →
       (finishSuccess now res af job).worker_notes =
         job.worker_notes ++ "\nArtifact save error: " ++ artNote af) ∧
    (finishSuccess now res af job).status ≠ Status.FAILED ∧
    (finishSuccess now res af job).status ≠ Status.QUEUED := by
  cases af <;> simp [finishSuccess, artNote]

/-- C9 witness: a concrete completed run whose plots archive could not be
written. -/
theorem C9_artifact_failure_still_completed_witness :
    (finishSuccess 6 ⟨"Run completed", some "csv", some "zip"⟩
        (ArtFail.plotsErr "disk full") job0).status = Status.COMPLETED ∧
    (finishSuccess 6 ⟨"Run completed", some "csv", some "zip"⟩
        (ArtFail.plotsErr "disk full") job0).worker_notes =
      job0.worker_notes ++ "\nArtifact save error: " ++
        artNote (ArtFail.plotsErr "disk full") :=
  ⟨(C9_artifact_failure_still_completed 6 ⟨"Run completed", some "csv", some "zip"⟩
      (ArtFail.plotsErr "disk full") job0).1,
   (C9_artifact_failure_still_completed 6 ⟨"Run completed", some "csv", some "zip"⟩
      (ArtFail.plotsErr "disk full") job0).2.1 (by simp)⟩

/-- Small-step semantics of the worker over the persisted store, at the
granularity of the persisted writes in `job_worker.run_worker_loop`:

* `claim` — lines 203–218: the worker finds a QUEUED job with no `.lock`
  marker, creates the marker, bumps `attempts` and persists RUNNING (the
  write between marker creation and the RUNNING save changes neither
  status nor attempts);
* `progress` — lines 220–239: a pipeline progress callback appends to the
  claimed job's history and persists it;
* `finishOk` / `finishErr` — lines 261–315: the pipeline returned or
  raised; the job is persisted via the success or failure path and the
  `finally` block removes the lock marker;
* `restart` — lines 164–177: the worker process died (which is the only
  way a RUNNING record outlives its claiming iteration) and a fresh worker
  runs the startup recovery pass; stale `.lock` markers are not removed by
  the recovery pass.

A crash itself is not a step: it simply ends the old worker's sequence of
writes, and `restart` begins the new one. -/
inductive WStep (maxA : Nat) : List JobDir → List JobDir → Prop
  | claim (s : List JobDir) (i : Nat) (jd : JobDir) (t : Int)
      (hget : s[i]? = some jd) (hq : jd.job.status = Status.QUEUED)
      (hl : jd.lock = false) :
      WStep maxA s (s.set i
        ⟨{ jd.job with
             status := Status.RUNNING, attempts := jd.job.attempts + 1,
             updated_at := t },
         true, jd.mtime⟩)
  | progress (s : List JobDir) (i : Nat) (jd : JobDir) (t : Int) (p : String)
      (hget : s[i]? = some jd) (hr : jd.job.status = Status.RUNNING)
      (hl : jd.lock = true) :
      WStep maxA s (s.set i ⟨progress_hook t p jd.job, true, jd.mtime⟩)
  | finishOk (s : List JobDir) (i : Nat) (jd : JobDir) (t : Int)
      (res : PipeRes) (af : ArtFail)
      (hget : s[i]? = some jd) (hr : jd.job.status = Status.RUNNING)
      (hl : jd.lock = true) :
      WStep maxA s (s.set i ⟨finishSuccess t res af jd.job, false, jd.mtime⟩)
  | finishErr (s : List JobDir) (i : Nat) (jd : JobDir) (t : Int)
      (tb msg : String)
      (hget : s[i]? = some jd) (hr : jd.job.status = Status.RUNNING)
      (hl : jd.lock = true) :
      WStep maxA s (s.set i ⟨finishFailure maxA t tb msg jd.job, false, jd.mtime⟩)
  | restart (s : List JobDir) (t : Int) :
      WStep maxA s (s.map (recoverOne t))

/-- Per-job invariant: a RUNNING record has its lock marker (the marker is
created before RUNNING is persisted and removed only after the status moves
on); a claimable (QUEUED, unlocked) job has strictly fewer than the maximum
attempts; and any QUEUED or RUNNING job is within the attempt bound. -/
def JInv (maxA : Nat) (jd : JobDir) : Prop :=
  (jd.job.status = Status.RUNNING → jd.lock = true) ∧
  (jd.job.status = Status.QUEUED → jd.lock = false → jd.job.attempts < maxA) ∧
  ((jd.job.status = Status.QUEUED ∨ jd.job.status = Status.RUNNING) →
     jd.job.attempts ≤ maxA)

/-- Store-wide invariant. -/
def SInv (maxA : Nat) (s : List JobDir) : Prop := ∀ jd ∈ s, JInv maxA jd

theorem finishSuccess_status (now : Int) (res : PipeRes) (af : ArtFail)
    (job : Job) : (finishSuccess now res af job).status = Status.COMPLETED := by
  cases af <;> rfl

theorem WStep_preserves_SInv {maxA : Nat} {s s' : List JobDir}
    (hstep : WStep maxA s s') (hinv : SInv maxA s) : SInv maxA s' := by
  cases hstep with
  | claim i jd t hget hq hl =>
      intro x hx
      rcases List.mem_or_eq_of_mem_set hx with hx | rfl
      · exact hinv x hx
      · have hjd := hinv jd (List.getElem?_mem hget)
        refine ⟨fun _ => rfl, fun h _ => by simp at h, fun _ => ?_⟩
        have := hjd.2.1 hq hl
        simpa using this
  | progress i jd t p hget hr hl =>
      intro x hx
      rcases List.mem_or_eq_of_mem_set hx with hx | rfl
      · exact hinv x hx
      · have hjd := hinv jd (List.getElem?_mem hget)
        refine ⟨fun _ => rfl, fun h _ => ?_, fun _ => ?_⟩
        · have : jd.job.status = Status.QUEUED := h
          rw [hr] at this
          exact absurd this (by simp)
        · have := hjd.2.2 (Or.inr hr)
          simpa [progress_hook] using this
  | finishOk i jd t res af hget hr hl =>
      intro x hx
      rcases List.mem_or_eq_of_mem_set hx with hx | rfl
      · exact hinv x hx
      · refine ⟨fun h => ?_, fun h _ => ?_, fun h => ?_⟩
        · rw [show (⟨finishSuccess t res af jd.job, false, jd.mtime⟩ : JobDir).job
              = finishSuccess t res af jd.job from rfl, finishSuccess_status] at h
          exact absurd h (by simp)
        · rw [show (⟨finishSuccess t res af jd.job, false, jd.mtime⟩ : JobDir).job
              = finishSuccess t res af jd.job from rfl, finishSuccess_status] at h
          exact absurd h (by simp)
        · rcases h with h | h <;>
            · rw [show (⟨finishSuccess t res af jd.job, false, jd.mtime⟩ : JobDir).job
                  = finishSuccess t res af jd.job from rfl, finishSuccess_status] at h
              exact absurd h (by simp)
  | finishErr i jd t tb msg hget hr hl =>
      intro x hx
      rcases List.mem_or_eq_of_mem_set hx with hx | rfl
      · exact hinv x hx
      · have hjd := hinv jd (List.getElem?_mem hget)
        have hle := hjd.2.2 (Or.inr hr)
        by_cases hlt : jd.job.attempts < maxA
        · refine ⟨fun h => ?_, fun _ _ => ?_, fun _ => ?_⟩
          · simp [finishFailure, hlt] at h
          · simp only [finishFailure, if_pos hlt]
            exact hlt
          · simp only [finishFailure, if_pos hlt]
            exact hle
        · refine ⟨fun h => ?_, fun h _ => ?_, fun h => ?_⟩ <;>
            simp [finishFailure, hlt] at h
  | restart t =>
      intro x hx
      rcases List.mem_map.mp hx with ⟨jd, hjd, rfl⟩
      have h := hinv jd hjd
      by_cases hr : jd.job.status = Status.RUNNING
      · have hlock := h.1 hr
        have hle := h.2.2 (Or.inr hr)
        refine ⟨fun hh => ?_, fun _ hh => ?_, fun _ => ?_⟩
        · simp [recoverOne, hr] at hh
        · simp [recoverOne, hr, hlock] at hh
        · simpa [recoverOne, hr] using hle
      · simpa [recoverOne, hr] using h

theorem reach_SInv {maxA : Nat} {init s : List JobDir}
    (hinit : SInv maxA init)
    (hreach : Relation.ReflTransGen (WStep maxA) init s) : SInv maxA s := by
  induction hreach with
  | refl => exact hinit
  | tail _ hstep ih => exact WStep_preserves_SInv hstep ih

/-- C1: over every sequence of worker steps — claims, progress writes,
successful or failing finishes, and worker restarts that re-queue jobs
found RUNNING — starting from any store satisfying the job invariant
(which freshly created jobs do: QUEUED, unlocked, attempts = 0), the
attempts counter of every QUEUED or RUNNING job never exceeds the
configured maximum, and any transition of a job to FAILED happens exactly
when its attempts counter equals the maximum, never on an earlier
attempt. -/
theorem C1_retry_bound (maxA : Nat) (init s : List JobDir)
    (hinit : SInv maxA init)
    (hreach : Relation.ReflTransGen (WStep maxA) init s) :
    (∀ jd ∈ s, (jd.job.status = Status.QUEUED ∨ jd.job.status = Status.RUNNING) →
        jd.job.attempts ≤ maxA) ∧
    (∀ s' : List JobDir, WStep maxA s s' →
       ∀ (i : Nat) (jd jd' : JobDir), s[i]? = some jd → s'[i]? = some jd' →
         jd.job.status ≠ Status.FAILED → jd'.job.status = Status.FAILED →
         jd'.job.attempts = maxA) := by
  have hs : SInv maxA s := reach_SInv hinit hreach
  refine ⟨fun jd hm hq => (hs jd hm).2.2 hq, ?_⟩
  intro s' hstep i jd jd' hgi hgi' hne hF
  cases hstep with
  | claim i0 jd0 t hget hq hl =>
      by_cases hii : i0 = i
      · subst hii
        have hlt : i0 < s.length := (List.getElem?_eq_some_iff.mp hgi).1
        rw [List.getElem?_set_self hlt] at hgi'
        cases hgi'
        simp at hF
      · rw [List.getElem?_set_ne hii] at hgi'
        rw [hgi] at hgi'
        cases hgi'
        exact absurd hF hne
  | progress i0 jd0 t p hget hr hl =>
      by_cases hii : i0 = i
      · subst hii
        have hlt : i0 < s.length := (List.getElem?_eq_some_iff.mp hgi).1
        rw [List.getElem?_set_self hlt] at hgi'
        cases hgi'
        have hPF : jd0.job.status = Status.FAILED := hF
        rw [hr] at hPF
        exact absurd hPF (by decide)
      · rw [List.getElem?_set_ne hii] at hgi'
        rw [hgi] at hgi'
        cases hgi'
        exact absurd hF hne
  | finishOk i0 jd0 t res af hget hr hl =>
      by_cases hii : i0 = i
      · subst hii
        have hlt : i0 < s.length := (List.getElem?_eq_some_iff.mp hgi).1
        rw [List.getElem?_set_self hlt] at hgi'
        cases hgi'
        rw [show (⟨finishSuccess t res af jd0.job, false, jd0.mtime⟩ : JobDir).job
              = finishSuccess t res af jd0.job from rfl,
            finishSuccess_status] at hF
        exact absurd hF (by simp)
      · rw [List.getElem?_set_ne hii] at hgi'
        rw [hgi] at hgi'
        cases hgi'
        exact absurd hF hne
  | finishErr i0 jd0 t tb msg hget hr hl =>
      by_cases hii : i0 = i
      · subst hii
        have hlt : i0 < s.length := (List.getElem?_eq_some_iff.mp hgi).1
        rw [List.getElem?_set_self hlt] at hgi'
        cases hgi'
        have hle : jd0.job.attempts ≤ maxA :=
          (hs jd0 (List.getElem?_mem hget)).2.2 (Or.inr hr)
        by_cases hltA : jd0.job.attempts < maxA
        · have hPF : (finishFailure maxA t tb msg jd0.job).status = Status.FAILED := hF
          rw [finishFailure, if_pos hltA] at hPF
          exact absurd (show Status.QUEUED = Status.FAILED from hPF) (by decide)
        · show (finishFailure maxA t tb msg jd0.job).attempts = maxA
          rw [finishFailure, if_neg hltA]
          show jd0.job.attempts = maxA
          omega
      · rw [List.getElem?_set_ne hii] at hgi'
        rw [hgi] at hgi'
        cases hgi'
        exact absurd hF hne
  | restart t =>
      rw [List.getElem?_map, hgi] at hgi'
      cases hgi'
      by_cases hr : jd.job.status = Status.RUNNING
      · rw [recoverOne, if_pos hr] at hF
        exact absurd (show Status.QUEUED = Status.FAILED from hF) (by decide)
      · rw [recoverOne, if_neg hr] at hF
        exact absurd hF hne

/-- A freshly created job directory: QUEUED, no lock marker, attempts 0. -/
def jdFresh : JobDir := ⟨job0, false, 1⟩

/-- The same job directory right after the worker claims it. -/
def jdClaimed : JobDir :=
  ⟨{ job0 with status := Status.RUNNING, attempts := 1, updated_at := 5 },
   true, 1⟩

/-- C1 witness: a fresh store containing one job, one concrete claim step,
and the resulting RUNNING job is within the attempt bound. -/
theorem C1_retry_bound_witness : jdClaimed.job.attempts ≤ 2 :=
  (C1_retry_bound 2 [jdFresh] [jdClaimed]
      (by
        intro jd hm
        rw [List.mem_singleton] at hm
        subst hm
        exact ⟨fun h => absurd h (by decide), fun _ _ => by decide,
               fun _ => by decide⟩)
      (Relation.ReflTransGen.single
        (WStep.claim [jdFresh] 0 jdFresh 5 rfl rfl rfl))).1
    jdClaimed (by simp) (Or.inr rfl)

/-- The failure-shaped dict `job_manager.create_job` returns from its
`except` branch (lines 59–74). -/
structure FailDict where
  status : String
  message : String
  logs : String
  last_error : Option String
deriving DecidableEq

/-- `job_manager.create_job` (lines 23–74). A fresh id (`uuid4().hex`) is
supplied by the id source; `writable` models whether the backing medium
accepts the directory creation and the `job.json` write. On success the
initial QUEUED record is persisted (atomically: write to `.tmp` then
`os.replace`) and the id is returned. If the medium is unwritable the
raised exception is caught and a failure-shaped dict is returned instead of
an id; no readable job record is left (at most an empty directory without
`job.json`, which `load_job` treats as not found). -/
def create_job (writable : Bool) (freshId : Nat) (now : Int)
    (uploaded : List String) (parameters : List (String × String))
    (store : List JobDir) : List JobDir × Sum Nat FailDict :=
  if writable then
    let meta : Job :=
      { id := freshId, status := Status.QUEUED, created_at := now,
        updated_at := now, attempts := 0, progress_history := [],
        last_error := none, params := parameters, input_files := uploaded,
        output_files := [], worker_notes := "", message := "" }
    (store ++ [⟨meta, false, now⟩], Sum.inl freshId)
  else
    (store, Sum.inr { status := "FAILED", message := "Failed creating job",
                      logs := "traceback", last_error := some "traceback" })

/-- C7: with a writable medium, `create_job` returns the fresh id after
appending an initial record with status QUEUED, `attempts = 0` and empty
progress history, and the id occurs exactly once in the store; with an
unwritable medium it returns the failure dict — never a job id — and
leaves no record behind. -/
theorem C7_create_job (writable : Bool) (freshId : Nat) (now : Int)
    (uploaded : List String) (parameters : List (String × String))
    (store : List JobDir)
    (hfresh : freshId ∉ store.map (fun jd => jd.job.id)) :
    (writable = true →
       (create_job writable freshId now uploaded parameters store).2 =
         Sum.inl freshId ∧
       ∃ jd : JobDir,
         (create_job writable freshId now uploaded parameters store).1 =
           store ++ [jd] ∧
         jd.job.id = freshId ∧ jd.job.status = Status.QUEUED ∧
         jd.job.attempts = 0 ∧ jd.job.progress_history = [] ∧
         ((create_job writable freshId now uploaded parameters store).1.map
             (fun x => x.job.id)).count freshId = 1) ∧
    (writable = false →
       (∀ n : Nat,
          (create_job writable freshId now uploaded parameters store).2 ≠
            Sum.inl n) ∧
       (create_job writable freshId now uploaded parameters store).1 = store) := by
  cases writable with
  | false =>
      refine ⟨fun h => (nomatch h), fun _ => ⟨?_, rfl⟩⟩
      intro n h
      simp [create_job] at h
  | true =>
      refine ⟨fun _ => ⟨rfl, ⟨_, rfl, rfl, rfl, rfl, rfl, ?_⟩⟩, fun h => nomatch h⟩
      simp only [create_job, if_pos, List.map_append, List.count_append]
      rw [List.count_eq_zero.mpr hfresh]
      simp

/-- C7 witness: a concrete creation on a writable store and a concrete
refused creation on an unwritable one. -/
theorem C7_create_job_witness :
    (create_job true 42 7 ["a.fasta"] [("identity", "90")] []).2 = Sum.inl 42 ∧
    (create_job false 42 7 ["a.fasta"] [("identity", "90")] []).1 = [] :=
  ⟨((C7_create_job true 42 7 ["a.fasta"] [("identity", "90")] [] (by simp)).1
      rfl).1,
   ((C7_create_job false 42 7 ["a.fasta"] [("identity", "90")] [] (by simp)).2
      rfl).2⟩

/-- `job_manager.list_jobs` (lines 148–157): iterate the job directories
sorted by directory `st_mtime`, newest first (Python's stable `sorted` with
`reverse=True`), and return their parsed `job.json` records. -/
def list_jobs (store : List JobDir) : List Job :=
  (store.mergeSort (fun a b => decide (b.mtime ≤ a.mtime))).map (fun jd => jd.job)

/-- C8, amended: `list_jobs` returns all stored job records ordered newest
first by the job directory's modification time (`st_mtime`), not by the
record's `created_at`; the two orders coincide only while no older job's
directory is touched after a newer job is created. -/
theorem C8_list_jobs_mtime_order (store : List JobDir) :
    List.Pairwise (fun a b : JobDir => b.mtime ≤ a.mtime)
      (store.mergeSort (fun a b => decide (b.mtime ≤ a.mtime))) ∧
    (store.mergeSort (fun a b => decide (b.mtime ≤ a.mtime))).Perm store ∧
    list_jobs store =
      (store.mergeSort (fun a b => decide (b.mtime ≤ a.mtime))).map
        (fun jd => jd.job) := by
  refine ⟨?_, List.mergeSort_perm store _, rfl⟩
  have hs := @List.sorted_mergeSort JobDir
    (fun a b : JobDir => decide (b.mtime ≤ a.mtime))
    (fun a b c hab hbc => by
      simp only [decide_eq_true_eq] at hab hbc ⊢
      omega)
    (fun a b => by
      simp only [Bool.or_eq_true, decide_eq_true_eq]
      omega)
    store
  exact hs.imp (fun h => of_decide_eq_true h)

/-- An old job whose directory was modified recently. -/
def jdOld : JobDir := ⟨{ job0 with id := 1, created_at := 1 }, false, 10⟩

/-- A newer job whose directory has not been touched since creation. -/
def jdNew : JobDir := ⟨{ job0 with id := 2, created_at := 2 }, false, 5⟩

/-- The store holding those two jobs. -/
def exStore8 : List JobDir := [jdOld, jdNew]

/-- C8 counterexample: when an older job's directory carries a newer
`st_mtime` (any later write into it does that), `list_jobs` puts the older
job first — the output is not ordered newest first by creation time. -/
theorem C8_not_created_at_order :
    (list_jobs exStore8).map (fun j => j.created_at) = [1, 2] ∧
    ¬ List.Pairwise (fun a b : Job => b.created_at ≤ a.created_at)
        (list_jobs exStore8) := by
  have hls : list_jobs exStore8 = [jdOld.job, jdNew.job] := by
    simp [list_jobs, exStore8, List.mergeSort, jdOld, jdNew]
  rw [hls]
  constructor
  · simp [jdOld, jdNew]
  · simp [List.pairwise_cons, jdOld, jdNew]

/-- Which of `save_job`'s fallible filesystem steps succeed
(`job_manager.save_job`, lines 85–101): serializing the record
(`json.dumps`), writing the `.tmp` file, the atomic `os.replace`, and the
in-place fallback `write_text`. -/
structure Medium where
  serializeOk : Bool
  tmpWriteOk : Bool
  replaceOk : Bool
  directWriteOk : Bool
deriving DecidableEq

/-- What happened to the canonical `job.json` by the time `save_job`
returns. -/
inductive SaveEffect
  | atomicReplace
  | directWrite
  | noWrite
  | failedDirect
deriving DecidableEq

/-- The body of `save_job`'s outer `try` (lines 88–98): serialize, write
the `.tmp` file, `os.replace` it over `job.json`; if the replace raises,
the inner `except` falls back to writing `job.json` in place. The second
component is the exception (if any) escaping this body. -/
def save_body (m : Medium) : SaveEffect × Option String :=
  if !m.serializeOk then (SaveEffect.noWrite, some "dumps raised")
  else if !m.tmpWriteOk then (SaveEffect.noWrite, some "tmp write raised")
  else if m.replaceOk then (SaveEffect.atomicReplace, none)
  else if m.directWriteOk then (SaveEffect.directWrite, none)
  else (SaveEffect.failedDirect, some "fallback write raised")

/-- `job_manager.save_job` (lines 85–101): the outer
`except Exception: pass` swallows whatever the body raises, so the call
always returns `None` to its caller, whatever happened on disk. -/
def save_job (m : Medium) : SaveEffect × Except String Unit :=
  ((save_body m).1, Except.ok ())

/-- C10: `save_job` never raises — it returns normally for every
combination of filesystem failures, with a return value that does not
depend on the medium at all (so the caller cannot observe success,
non-atomic fallback, or silent failure from it) — and when the atomic
`os.replace` fails while the fallback write works, the record is written
in place, non-atomically. -/
theorem C10_save_job_never_raises (m : Medium) :
    (save_job m).2 = Except.ok () ∧
    (∀ m' : Medium, (save_job m).2 = (save_job m').2) ∧
    (m.serializeOk = true → m.tmpWriteOk = true → m.replaceOk = false →
       m.directWriteOk = true → (save_job m).1 = SaveEffect.directWrite) := by
  refine ⟨rfl, fun _ => rfl, ?_⟩
  intro h1 h2 h3 h4
  simp [save_job, save_body, h1, h2, h3, h4]

/-- C10 witness: a concrete medium whose `os.replace` fails but whose
fallback write works. -/
theorem C10_save_job_never_raises_witness :
    (save_job ⟨true, true, false, true⟩).2 = Except.ok () ∧
    (save_job ⟨true, true, false, true⟩).1 = SaveEffect.directWrite :=
  ⟨(C10_save_job_never_raises ⟨true, true, false, true⟩).1,
   (C10_save_job_never_raises ⟨true, true, false, true⟩).2.2 rfl rfl rfl rfl⟩

/-- A COMPLETED or FAILED job: the only statuses `_cleanup_jobs` collects
for deletion. -/
def isTerminalCF (j : Job) : Bool :=
  decide (j.status = Status.COMPLETED) || decide (j.status = Status.FAILED)

/-- The age test of `_cleanup_jobs`' first pass (`job_worker.py` lines
93–110): a truthy (nonzero) `created_at` strictly older than the cutoff
`now - max_age_days * 86400`. -/
def ageExpired (now : Int) (maxAgeDays : Nat) (j : Job) : Bool :=
  decide (j.created_at ≠ 0) &&
    decide (j.created_at < now - (maxAgeDays : Int) * 86400)

/-- The second pass of `_cleanup_jobs` (lines 112–139): re-list the
terminal jobs, sort them newest first by `created_at` (Python's stable
`sorted` with `reverse=True`), and delete every directory in
`jobs_sorted[max_jobs:]`. -/
def keepNewest (maxJobs : Nat) (s1 : List JobDir) : List JobDir :=
  s1.filter (fun jd => !(decide (jd.job.id ∈
    (((s1.filter (fun x => isTerminalCF x.job)).mergeSort
        (fun a b => decide (b.job.created_at ≤ a.job.created_at))).drop maxJobs).map
      (fun x => x.job.id))))

/-- `job_worker._cleanup_jobs` (lines 72–144): first delete every terminal
(COMPLETED or FAILED) job directory past the age ceiling, then prune the
remaining terminal jobs down to the newest `max_jobs`. Jobs in any other
status are never collected by either pass. Deletions, best-effort in the
code, all succeed in this model. -/
def cleanup_jobs (now : Int) (maxJobs maxAgeDays : Nat)
    (store : List JobDir) : List JobDir :=
  keepNewest maxJobs
    (store.filter (fun jd => !(isTerminalCF jd.job &&
      ageExpired now maxAgeDays jd.job)))

theorem keepNewest_terminal_length (maxJobs : Nat) (s1 : List JobDir)
    (hids : ((s1.filter (fun x => isTerminalCF x.job)).map
        (fun x => x.job.id)).Nodup) :
    ((keepNewest maxJobs s1).filter (fun x => isTerminalCF x.job)).length =
      min maxJobs (s1.filter (fun x => isTerminalCF x.job)).length := by
  unfold keepNewest
  set P : JobDir → Bool := fun x => isTerminalCF x.job with hPdef
  set le : JobDir → JobDir → Bool :=
    fun a b => decide (b.job.created_at ≤ a.job.created_at) with hledef
  set T : List JobDir := s1.filter P with hTdef
  set terms : List JobDir := T.mergeSort le with htermsdef
  set doomed : List Nat := (terms.drop maxJobs).map (fun x => x.job.id)
    with hdoomeddef
  set g : JobDir → Bool := fun jd => !(decide (jd.job.id ∈ doomed)) with hgdef
  have hperm : terms.Perm T := List.mergeSort_perm T le
  have h1 : (s1.filter g).filter P = s1.filter (fun a => P a && g a) :=
    List.filter_filter g s1
  have h2 : T.filter g = s1.filter (fun a => g a && P a) := by
    rw [hTdef]
    exact List.filter_filter P s1
  have h3 : s1.filter (fun a => P a && g a) = s1.filter (fun a => g a && P a) :=
    List.filter_congr (fun a _ => Bool.and_comm _ _)
  have hTg : (s1.filter g).filter P = T.filter g := by
    rw [h1, h3, ← h2]
  have hnd : (terms.map (fun x => x.job.id)).Nodup :=
    hids.perm ((hperm.map (fun x => x.job.id)).symm)
  have hsplit : terms = terms.take maxJobs ++ terms.drop maxJobs :=
    (List.take_append_drop _ _).symm
  have hdropfilter : (terms.drop maxJobs).filter g = [] := by
    rw [List.filter_eq_nil_iff]
    intro x hx
    have hxid : x.job.id ∈ doomed := by
      rw [hdoomeddef]
      exact List.mem_map_of_mem _ hx
    simp [hgdef, hxid]
  have htakefilter : (terms.take maxJobs).filter g = terms.take maxJobs := by
    rw [List.filter_eq_self]
    intro x hx
    have hnd2 := hnd
    rw [hsplit, List.map_append] at hnd2
    rcases List.nodup_append.mp hnd2 with ⟨-, -, hdisj⟩
    have hxid : x.job.id ∈ (terms.take maxJobs).map (fun x => x.job.id) :=
      List.mem_map_of_mem _ hx
    have hnot : x.job.id ∉ doomed := fun hmem =>
      hdisj hxid (by rwa [hdoomeddef] at hmem)
    simp [hgdef, hnot]
  rw [hTg, ← (hperm.filter g).length_eq]
  conv_lhs => rw [hsplit]
  rw [List.filter_append, hdropfilter, htakefilter, List.length_append]
  simp [List.length_take, htermsdef]

/-- C4, amended: with pairwise-distinct job ids, one `_cleanup_jobs` sweep
leaves exactly `min(configured_max, number_of_terminal_jobs_within_age_ceiling)`
terminal jobs (the code keeps at most `max_jobs`, not at least — the
claimed `max(...)` formula fails, see the counterexample), and every job
the sweep deletes was COMPLETED or FAILED at sweep time, so no RUNNING or
QUEUED job is ever deleted. -/
theorem C4_cleanup_retention (now : Int) (maxJobs maxAgeDays : Nat)
    (store : List JobDir)
    (hids : (store.map (fun x => x.job.id)).Nodup) :
    ((cleanup_jobs now maxJobs maxAgeDays store).filter
        (fun x => isTerminalCF x.job)).length =
      min maxJobs
        (store.filter (fun x =>
           isTerminalCF x.job && !ageExpired now maxAgeDays x.job)).length ∧
    (∀ jd ∈ store, jd ∉ cleanup_jobs now maxJobs maxAgeDays store →
       isTerminalCF jd.job = true) := by
  constructor
  · have hsub : ((store.filter (fun jd => !(isTerminalCF jd.job &&
        ageExpired now maxAgeDays jd.job))).filter
          (fun x => isTerminalCF x.job)).Sublist store :=
      (List.filter_sublist _).trans (List.filter_sublist _)
    have hids1 : (((store.filter (fun jd => !(isTerminalCF jd.job &&
        ageExpired now maxAgeDays jd.job))).filter
          (fun x => isTerminalCF x.job)).map (fun x => x.job.id)).Nodup :=
      hids.sublist (hsub.map _)
    rw [cleanup_jobs, keepNewest_terminal_length _ _ hids1, List.filter_filter]
    congr 2
    apply List.filter_congr
    intro a ha
    cases h1 : isTerminalCF a.job <;>
      cases h2 : ageExpired now maxAgeDays a.job <;> simp [h1, h2]
  · intro jd hjd hnotin
    by_contra hPf
    rw [Bool.not_eq_true] at hPf
    apply hnotin
    rw [cleanup_jobs, keepNewest]
    apply List.mem_filter.mpr
    refine ⟨List.mem_filter.mpr ⟨hjd, by simp [hPf]⟩, ?_⟩
    simp only [Bool.not_eq_eq_eq_not, Bool.not_true, decide_eq_false_iff_not]
    intro hmem
    rcases List.mem_map.mp hmem with ⟨x, hxdrop, hxid⟩
    have hxterms := List.drop_subset _ _ hxdrop
    have hxT := List.mem_mergeSort.mp hxterms
    rcases List.mem_filter.mp hxT with ⟨hxs1, hxP⟩
    have hxstore : x ∈ store := (List.mem_filter.mp hxs1).1
    have hxeq : x = jd := List.inj_on_of_nodup_map hids hxstore hjd hxid
    rw [hxeq] at hxP
    rw [hxP] at hPf
    cases hPf

/-- A store with three terminal jobs inside the age ceiling (and one QUEUED
job), more than a configured maximum of 2. -/
def exStore4 : List JobDir :=
  [⟨{ job0 with id := 1, status := Status.COMPLETED, created_at := 1 }, false, 1⟩,
   ⟨{ job0 with id := 2, status := Status.FAILED, created_at := 2 }, false, 2⟩,
   ⟨{ job0 with id := 3, status := Status.COMPLETED, created_at := 3 }, false, 3⟩,
   ⟨{ job0 with id := 4, status := Status.QUEUED, created_at := 1 }, false, 4⟩]

/-- C4 witness: the retention theorem applied to the concrete store. -/
theorem C4_cleanup_retention_witness :
    ((cleanup_jobs 0 2 7 exStore4).filter (fun x => isTerminalCF x.job)).length =
      min 2 ((exStore4.filter (fun x =>
        isTerminalCF x.job && !ageExpired 0 7 x.job)).length) :=
  (C4_cleanup_retention 0 2 7 exStore4 (by decide)).1

/-- C4 counterexample: three terminal jobs within the age ceiling and a
configured maximum of 2 leave 2 jobs after the sweep — the minimum of the
two quantities — whereas the claimed formula `max(configured_max,
jobs_within_age_ceiling)` predicts 3. -/
theorem C4_max_formula_fails :
    ((cleanup_jobs 0 2 7 exStore4).filter (fun x => isTerminalCF x.job)).length = 2 ∧
    (exStore4.filter (fun x =>
       isTerminalCF x.job && !ageExpired 0 7 x.job)).length = 3 ∧
    (2 : Nat) ≠ max 2 3 := by
  refine ⟨?_, by decide, by decide⟩
  simp [cleanup_jobs, keepNewest, exStore4, List.mergeSort, List.merge,
        isTerminalCF, ageExpired, job0]

end JobQueue
